import Mathlib

/-!
# VictoriaMetrics template builders of tiup

A shallow embedding of `pkg/cluster/template/config/vmetrics.go` and
`pkg/cluster/template/scripts/vmetrics.go`.

Conventions of the embedding.

* A Go `string` is a Lean `String`; a `[]string` is a `List String` (the nil
  slice is `[]`, `append` adds at the end).  A string is identified with the
  sequence of runes that `regexp` reads from it, in which a byte that is not
  valid UTF-8 is read as U+FFFD.
* A `[]byte` that is only converted from and to a `string` is a `String` too.
* A `uint64` port is a natural number.  No arithmetic is done on ports, they
  are only printed, so the functions are defined on every natural number and
  the results hold in particular below `2 ^ 64`.
* A method with a pointer receiver that mutates the receiver and returns it
  becomes a function from the old record to the new record.
* The collaborators that are not part of these two files (the embedded asset
  reader, `text/template`, `ioutil.WriteFile`) are fields of an environment
  record, and the effects on the outside world are passed explicitly as a
  `World`.
-/

namespace Tiup

/-! ## Formatting with `fmt.Sprintf("%s:%d", ip, port)` -/

/-- The verb `%d` on an unsigned integer: its decimal digits, most significant
first, `0` printed as `"0"`. -/
def fmtUint (u : Nat) : String :=
  (Nat.toDigits 10 u).asString

/-- The call `fmt.Sprintf("%s:%d", ip, port)`: the string verbatim, a colon, the
port in base ten. -/
def fmt.Sprintf_s_d (ip : String) (port : Nat) : String :=
  ip ++ ":" ++ fmtUint port

/-! ## `config.VictoriaMetricsConfig` -/

/-- The data from which the VictoriaMetrics config file is generated. -/
structure VictoriaMetricsConfig where
  ClusterName : String
  TLSEnabled : Bool
  KafkaAddrs : List String
  NodeExporterAddrs : List String
  TiDBStatusAddrs : List String
  TiKVStatusAddrs : List String
  PDAddrs : List String
  TiFlashStatusAddrs : List String
  TiFlashLearnerStatusAddrs : List String
  PumpAddrs : List String
  DrainerAddrs : List String
  CDCAddrs : List String
  ZookeeperAddrs : List String
  BlackboxExporterAddrs : List String
  LightningAddrs : List String
  MonitoredServers : List String
  AlertmanagerAddrs : List String
  PushgatewayAddr : String
  BlackboxAddr : String
  KafkaExporterAddr : String
  GrafanaAddr : String
  DMMasterAddrs : List String
  DMWorkerAddrs : List String
  deriving DecidableEq, Repr

/-- The constructor sets the cluster name and the TLS flag; every other field
keeps the zero value of its type. -/
def NewVictoriaMetricsConfig (cluster : String) (enableTLS : Bool) : VictoriaMetricsConfig where
  ClusterName := cluster
  TLSEnabled := enableTLS
  KafkaAddrs := []
  NodeExporterAddrs := []
  TiDBStatusAddrs := []
  TiKVStatusAddrs := []
  PDAddrs := []
  TiFlashStatusAddrs := []
  TiFlashLearnerStatusAddrs := []
  PumpAddrs := []
  DrainerAddrs := []
  CDCAddrs := []
  ZookeeperAddrs := []
  BlackboxExporterAddrs := []
  LightningAddrs := []
  MonitoredServers := []
  AlertmanagerAddrs := []
  PushgatewayAddr := ""
  BlackboxAddr := ""
  KafkaExporterAddr := ""
  GrafanaAddr := ""
  DMMasterAddrs := []
  DMWorkerAddrs := []

namespace VictoriaMetricsConfig

def AddKafka (c : VictoriaMetricsConfig) (ip : String) (port : Nat) : VictoriaMetricsConfig :=
  { c with KafkaAddrs := c.KafkaAddrs ++ [fmt.Sprintf_s_d ip port] }

def AddNodeExpoertor (c : VictoriaMetricsConfig) (ip : String) (port : Nat) :
    VictoriaMetricsConfig :=
  { c with NodeExporterAddrs := c.NodeExporterAddrs ++ [fmt.Sprintf_s_d ip port] }

def AddTiDB (c : VictoriaMetricsConfig) (ip : String) (port : Nat) : VictoriaMetricsConfig :=
  { c with TiDBStatusAddrs := c.TiDBStatusAddrs ++ [fmt.Sprintf_s_d ip port] }

def AddTiKV (c : VictoriaMetricsConfig) (ip : String) (port : Nat) : VictoriaMetricsConfig :=
  { c with TiKVStatusAddrs := c.TiKVStatusAddrs ++ [fmt.Sprintf_s_d ip port] }

def AddPD (c : VictoriaMetricsConfig) (ip : String) (port : Nat) : VictoriaMetricsConfig :=
  { c with PDAddrs := c.PDAddrs ++ [fmt.Sprintf_s_d ip port] }

def AddTiFlashLearner (c : VictoriaMetricsConfig) (ip : String) (port : Nat) :
    VictoriaMetricsConfig :=
  { c with TiFlashLearnerStatusAddrs := c.TiFlashLearnerStatusAddrs ++ [fmt.Sprintf_s_d ip port] }

def AddTiFlash (c : VictoriaMetricsConfig) (ip : String) (port : Nat) : VictoriaMetricsConfig :=
  { c with TiFlashStatusAddrs := c.TiFlashStatusAddrs ++ [fmt.Sprintf_s_d ip port] }

def AddPump (c : VictoriaMetricsConfig) (ip : String) (port : Nat) : VictoriaMetricsConfig :=
  { c with PumpAddrs := c.PumpAddrs ++ [fmt.Sprintf_s_d ip port] }

def AddDrainer (c : VictoriaMetricsConfig) (ip : String) (port : Nat) : VictoriaMetricsConfig :=
  { c with DrainerAddrs := c.DrainerAddrs ++ [fmt.Sprintf_s_d ip port] }

def AddCDC (c : VictoriaMetricsConfig) (ip : String) (port : Nat) : VictoriaMetricsConfig :=
  { c with CDCAddrs := c.CDCAddrs ++ [fmt.Sprintf_s_d ip port] }

def AddZooKeeper (c : VictoriaMetricsConfig) (ip : String) (port : Nat) : VictoriaMetricsConfig :=
  { c with ZookeeperAddrs := c.ZookeeperAddrs ++ [fmt.Sprintf_s_d ip port] }

def AddBlackboxExporter (c : VictoriaMetricsConfig) (ip : String) (port : Nat) :
    VictoriaMetricsConfig :=
  { c with BlackboxExporterAddrs := c.BlackboxExporterAddrs ++ [fmt.Sprintf_s_d ip port] }

def AddLightning (c : VictoriaMetricsConfig) (ip : String) (port : Nat) : VictoriaMetricsConfig :=
  { c with LightningAddrs := c.LightningAddrs ++ [fmt.Sprintf_s_d ip port] }

def AddMonitoredServer (c : VictoriaMetricsConfig) (ip : String) : VictoriaMetricsConfig :=
  { c with MonitoredServers := c.MonitoredServers ++ [ip] }

def AddAlertmanager (c : VictoriaMetricsConfig) (ip : String) (port : Nat) :
    VictoriaMetricsConfig :=
  { c with AlertmanagerAddrs := c.AlertmanagerAddrs ++ [fmt.Sprintf_s_d ip port] }

def AddPushgateway (c : VictoriaMetricsConfig) (ip : String) (port : Nat) :
    VictoriaMetricsConfig :=
  { c with PushgatewayAddr := fmt.Sprintf_s_d ip port }

def AddBlackbox (c : VictoriaMetricsConfig) (ip : String) (port : Nat) : VictoriaMetricsConfig :=
  { c with BlackboxAddr := fmt.Sprintf_s_d ip port }

def AddKafkaExporter (c : VictoriaMetricsConfig) (ip : String) (port : Nat) :
    VictoriaMetricsConfig :=
  { c with KafkaExporterAddr := fmt.Sprintf_s_d ip port }

def AddGrafana (c : VictoriaMetricsConfig) (ip : String) (port : Nat) : VictoriaMetricsConfig :=
  { c with GrafanaAddr := fmt.Sprintf_s_d ip port }

def AddDMMaster (c : VictoriaMetricsConfig) (ip : String) (port : Nat) : VictoriaMetricsConfig :=
  { c with DMMasterAddrs := c.DMMasterAddrs ++ [fmt.Sprintf_s_d ip port] }

def AddDMWorker (c : VictoriaMetricsConfig) (ip : String) (port : Nat) : VictoriaMetricsConfig :=
  { c with DMWorkerAddrs := c.DMWorkerAddrs ++ [fmt.Sprintf_s_d ip port] }

end VictoriaMetricsConfig

/-- One call of an accumulator of the config builder, with its arguments. -/
inductive ConfigCall where
  | AddKafka (ip : String) (port : Nat)
  | AddNodeExpoertor (ip : String) (port : Nat)
  | AddTiDB (ip : String) (port : Nat)
  | AddTiKV (ip : String) (port : Nat)
  | AddPD (ip : String) (port : Nat)
  | AddTiFlashLearner (ip : String) (port : Nat)
  | AddTiFlash (ip : String) (port : Nat)
  | AddPump (ip : String) (port : Nat)
  | AddDrainer (ip : String) (port : Nat)
  | AddCDC (ip : String) (port : Nat)
  | AddZooKeeper (ip : String) (port : Nat)
  | AddBlackboxExporter (ip : String) (port : Nat)
  | AddLightning (ip : String) (port : Nat)
  | AddMonitoredServer (ip : String)
  | AddAlertmanager (ip : String) (port : Nat)
  | AddPushgateway (ip : String) (port : Nat)
  | AddBlackbox (ip : String) (port : Nat)
  | AddKafkaExporter (ip : String) (port : Nat)
  | AddGrafana (ip : String) (port : Nat)
  | AddDMMaster (ip : String) (port : Nat)
  | AddDMWorker (ip : String) (port : Nat)
  deriving DecidableEq, Repr

/-- The method a call names, applied to a builder. -/
def ConfigCall.run (c : VictoriaMetricsConfig) : ConfigCall → VictoriaMetricsConfig
  | .AddKafka ip port => c.AddKafka ip port
  | .AddNodeExpoertor ip port => c.AddNodeExpoertor ip port
  | .AddTiDB ip port => c.AddTiDB ip port
  | .AddTiKV ip port => c.AddTiKV ip port
  | .AddPD ip port => c.AddPD ip port
  | .AddTiFlashLearner ip port => c.AddTiFlashLearner ip port
  | .AddTiFlash ip port => c.AddTiFlash ip port
  | .AddPump ip port => c.AddPump ip port
  | .AddDrainer ip port => c.AddDrainer ip port
  | .AddCDC ip port => c.AddCDC ip port
  | .AddZooKeeper ip port => c.AddZooKeeper ip port
  | .AddBlackboxExporter ip port => c.AddBlackboxExporter ip port
  | .AddLightning ip port => c.AddLightning ip port
  | .AddMonitoredServer ip => c.AddMonitoredServer ip
  | .AddAlertmanager ip port => c.AddAlertmanager ip port
  | .AddPushgateway ip port => c.AddPushgateway ip port
  | .AddBlackbox ip port => c.AddBlackbox ip port
  | .AddKafkaExporter ip port => c.AddKafkaExporter ip port
  | .AddGrafana ip port => c.AddGrafana ip port
  | .AddDMMaster ip port => c.AddDMMaster ip port
  | .AddDMWorker ip port => c.AddDMWorker ip port

/-- A finite sequence of accumulator calls, applied first to last. -/
def runConfigCalls (c : VictoriaMetricsConfig) (calls : List ConfigCall) : VictoriaMetricsConfig :=
  calls.foldl ConfigCall.run c

/-! ## `regexp.MatchString`

The standard library's matcher is modelled by a small backtracking matcher over
the parsed pattern.  A string is matched rune by rune; a cursor is a position
in the text together with the text that is still to be read. -/

/-- The parsed form of the patterns that are used: `^`, `$`, a character range
`[lo-hi]`, a literal character, `r*` and concatenation.  Without flags `^` and
`$` match only at the beginning and at the end of the text. -/
inductive Regex where
  | beginText
  | endText
  | range (lo hi : Char)
  | char (c : Char)
  | star (r : Regex)
  | cat (r s : Regex)
  deriving DecidableEq, Repr

/-- A place in the text: how many runes are before it, and the runes after it. -/
structure Cursor where
  pos : Nat
  rest : List Char
  deriving DecidableEq, Repr

/-- The cursors reached by zero or more rounds of `step`.  A round that does
not consume input adds no new cursor, so at most `rest.length` rounds count. -/
def Regex.iterate (step : Cursor → List Cursor) : Nat → Cursor → List Cursor
  | 0, p => [p]
  | fuel + 1, p =>
    p :: ((step p).filter (fun q => q.rest.length < p.rest.length)).flatMap (iterate step fuel)

/-- The cursors at which a match of `r` that starts at `p` can end. -/
def Regex.ends : Regex → Cursor → List Cursor
  | .beginText, p => if p.pos = 0 then [p] else []
  | .endText, p => if p.rest = [] then [p] else []
  | .range lo hi, p =>
    match p.rest with
    | [] => []
    | c :: t => if lo ≤ c ∧ c ≤ hi then [⟨p.pos + 1, t⟩] else []
  | .char a, p =>
    match p.rest with
    | [] => []
    | c :: t => if c = a then [⟨p.pos + 1, t⟩] else []
  | .star r, p => Regex.iterate (Regex.ends r) p.rest.length p
  | .cat r s, p => (Regex.ends r p).flatMap (Regex.ends s)

/-- The call `regexp.MatchString(pattern, s)` for a pattern that compiles:
whether some substring of `s` matches, the search starting at any position. -/
def regexp.MatchString (re : Regex) (s : String) : Bool :=
  (List.range (s.length + 1)).any
    (fun i => !(Regex.ends re ⟨i, s.toList.drop i⟩).isEmpty)

/-- The pattern `^[1-9]\d*d$`; the class `\d` is `[0-9]`. -/
def retentionPattern : Regex :=
  .cat .beginText
    (.cat (.range '1' '9')
      (.cat (.star (.range '0' '9'))
        (.cat (.char 'd') .endText)))

/-! ## `path.Join` -/

/-- The elements of a path between its slashes. -/
def splitSlash : List Char → List (List Char)
  | [] => [[]]
  | c :: t =>
    if c = '/' then [] :: splitSlash t
    else
      match splitSlash t with
      | [] => [[c]]
      | e :: es => (c :: e) :: es

/-- One element in the loop of `path.Clean`.  The state is the elements written
so far, last first, and how many of them are leading `..` elements that cannot
be removed. -/
def cleanStep (rooted : Bool) (st : List (List Char) × Nat) (e : List Char) :
    List (List Char) × Nat :=
  if e = [] ∨ e = ['.'] then st
  else if e = ['.', '.'] then
    if st.2 < st.1.length then (st.1.tail, st.2)
    else if rooted then st
    else (e :: st.1, st.2 + 1)
  else (e :: st.1, st.2)

/-- The function `path.Clean`, element by element: empty elements and `.` are
dropped, `..` removes the element before it where there is one, a rooted path
keeps its leading slash, and the empty result is `.`. -/
def path.Clean (p : String) : String :=
  if p = "" then "."
  else
    let rooted : Bool := p.toList.head? = some '/'
    let out := ((splitSlash p.toList).foldl (cleanStep rooted) ([], 0)).1.reverse
    let body := String.intercalate "/" (out.map List.asString)
    if rooted then "/" ++ body
    else if body = "" then "."
    else body

/-- The elements of `path.Join` before cleaning: empty elements are skipped
until something has been written, the others are joined with a slash. -/
def joinRaw : String → List String → String
  | buf, [] => buf
  | buf, e :: es =>
    if buf ≠ "" then joinRaw (buf ++ "/" ++ e) es
    else if e ≠ "" then joinRaw e es
    else joinRaw buf es

/-- The function `path.Join`. -/
def path.Join (elem : List String) : String :=
  if (elem.map String.length).sum = 0 then ""
  else path.Clean (joinRaw "" elem)

/-! ## `scripts.VictoriaMetricsScript` -/

/-- The data from which the start script is generated.  `Port` is a Go `int`. -/
structure VictoriaMetricsScript where
  IP : String
  Port : Int
  DeployDir : String
  DataDir : String
  LogDir : String
  NumaNode : String
  Retention : String
  tplFile : String
  deriving DecidableEq, Repr

/-- The constructor sets the address, the port `9090` and the three
directories; `NumaNode`, `Retention` and `tplFile` keep the zero value. -/
def NewVictoriaMetricsScript (ip deployDir dataDir logDir : String) : VictoriaMetricsScript where
  IP := ip
  Port := 9090
  DeployDir := deployDir
  DataDir := dataDir
  LogDir := logDir
  NumaNode := ""
  Retention := ""
  tplFile := ""

namespace VictoriaMetricsScript

def WithPort (c : VictoriaMetricsScript) (port : Int) : VictoriaMetricsScript :=
  { c with Port := port }

def WithNumaNode (c : VictoriaMetricsScript) (numa : String) : VictoriaMetricsScript :=
  { c with NumaNode := numa }

def WithRetention (c : VictoriaMetricsScript) (retention : String) : VictoriaMetricsScript :=
  let valid := regexp.MatchString retentionPattern retention
  if retention = "" ∨ ¬ valid then { c with Retention := "30d" }
  else { c with Retention := retention }

def WithTPLFile (c : VictoriaMetricsScript) (fname : String) : VictoriaMetricsScript :=
  { c with tplFile := fname }

end VictoriaMetricsScript

/-- One call of a mutator of the script builder, with its argument. -/
inductive ScriptCall where
  | WithPort (port : Int)
  | WithNumaNode (numa : String)
  | WithRetention (retention : String)
  | WithTPLFile (fname : String)
  deriving DecidableEq, Repr

/-- The method a call names, applied to a builder. -/
def ScriptCall.run (c : VictoriaMetricsScript) : ScriptCall → VictoriaMetricsScript
  | .WithPort port => c.WithPort port
  | .WithNumaNode numa => c.WithNumaNode numa
  | .WithRetention retention => c.WithRetention retention
  | .WithTPLFile fname => c.WithTPLFile fname

/-- A finite sequence of mutator calls, applied first to last. -/
def runScriptCalls (c : VictoriaMetricsScript) (calls : List ScriptCall) : VictoriaMetricsScript :=
  calls.foldl ScriptCall.run c

def ScriptCall.isWithPort : ScriptCall → Bool
  | .WithPort _ => true
  | _ => false

def ScriptCall.isWithRetention : ScriptCall → Bool
  | .WithRetention _ => true
  | _ => false

/-! ## Rendering: the asset reader, the template engine and the file sink -/

/-- A Go `error` value. -/
structure GoError where
  msg : String
  deriving DecidableEq, Repr

/-- The record handed to `Execute`: either of the two builders. -/
inductive TemplateData where
  | config (c : VictoriaMetricsConfig)
  | script (c : VictoriaMetricsScript)
  deriving DecidableEq, Repr

/-- The collaborators.  `Tmpl` is a parsed template and `FS` a state of the
file system.

* `ReadFile` is `embed.ReadFile`.
* `Parse` is `template.New("VictoriaMetrics").Parse`.
* `Execute` is `tmpl.Execute` into an empty buffer: the bytes written, or the
  error (the buffer is dropped by the callers when there is an error).
* `WriteFile` is `ioutil.WriteFile` with the path, the bytes and the mode. -/
structure Env (Tmpl FS : Type) where
  ReadFile : String → Except GoError String
  Parse : String → Except GoError Tmpl
  Execute : Tmpl → TemplateData → Except GoError String
  WriteFile : String → String → Nat → FS → Option GoError × FS

/-- The outside world: the file system, and a record of the calls made to the
asset reader and to the file sink, oldest first. -/
structure World (FS : Type) where
  fs : FS
  reads : List String
  writes : List (String × String × Nat)

/-- A call of `embed.ReadFile`. -/
def embed.ReadFile {Tmpl FS : Type} (env : Env Tmpl FS) (fp : String) (w : World FS) :
    Except GoError String × World FS :=
  (env.ReadFile fp, { w with reads := w.reads ++ [fp] })

/-- A call of `ioutil.WriteFile`. -/
def ioutil.WriteFile {Tmpl FS : Type} (env : Env Tmpl FS) (file data : String) (perm : Nat)
    (w : World FS) : Option GoError × World FS :=
  let r := env.WriteFile file data perm w.fs
  (r.1, { w with fs := r.2, writes := w.writes ++ [(file, data, perm)] })

namespace VictoriaMetricsConfig

def ConfigWithTemplate {Tmpl FS : Type} (env : Env Tmpl FS) (c : VictoriaMetricsConfig)
    (tpl : String) : Except GoError String :=
  match env.Parse tpl with
  | .error err => .error err
  | .ok tmpl =>
    match env.Execute tmpl (.config c) with
    | .error err => .error err
    | .ok content => .ok content

def Config {Tmpl FS : Type} (env : Env Tmpl FS) (c : VictoriaMetricsConfig) (w : World FS) :
    Except GoError String × World FS :=
  let fp := path.Join ["/templates", "config", "VictoriaMetrics.yml.tpl"]
  match embed.ReadFile env fp w with
  | (.error err, w1) => (.error err, w1)
  | (.ok tpl, w1) => (c.ConfigWithTemplate env tpl, w1)

def ConfigToFile {Tmpl FS : Type} (env : Env Tmpl FS) (c : VictoriaMetricsConfig)
    (file : String) (w : World FS) : Option GoError × World FS :=
  match c.Config env w with
  | (.error err, w1) => (some err, w1)
  | (.ok config, w1) => ioutil.WriteFile env file config 0o755 w1

end VictoriaMetricsConfig

namespace VictoriaMetricsScript

def ConfigWithTemplate {Tmpl FS : Type} (env : Env Tmpl FS) (c : VictoriaMetricsScript)
    (tpl : String) : Except GoError String :=
  match env.Parse tpl with
  | .error err => .error err
  | .ok tmpl =>
    match env.Execute tmpl (.script c) with
    | .error err => .error err
    | .ok content => .ok content

/-- The path `Config` reads the template from. -/
def templatePath (c : VictoriaMetricsScript) : String :=
  if c.tplFile = "" then path.Join ["/templates", "scripts", "run_prometheus.sh.tpl"]
  else c.tplFile

def Config {Tmpl FS : Type} (env : Env Tmpl FS) (c : VictoriaMetricsScript) (w : World FS) :
    Except GoError String × World FS :=
  let fp := c.templatePath
  match embed.ReadFile env fp w with
  | (.error err, w1) => (.error err, w1)
  | (.ok tpl, w1) => (c.ConfigWithTemplate env tpl, w1)

def ConfigToFile {Tmpl FS : Type} (env : Env Tmpl FS) (c : VictoriaMetricsScript)
    (file : String) (w : World FS) : Option GoError × World FS :=
  match c.Config env w with
  | (.error err, w1) => (some err, w1)
  | (.ok config, w1) => ioutil.WriteFile env file config 0o755 w1

end VictoriaMetricsScript

/-! ## The fields of the config builder, as the specification names them -/

/-- The sixteen address lists. -/
inductive AddrList where
  | KafkaAddrs
  | NodeExporterAddrs
  | TiDBStatusAddrs
  | TiKVStatusAddrs
  | PDAddrs
  | TiFlashStatusAddrs
  | TiFlashLearnerStatusAddrs
  | PumpAddrs
  | DrainerAddrs
  | CDCAddrs
  | ZookeeperAddrs
  | BlackboxExporterAddrs
  | LightningAddrs
  | AlertmanagerAddrs
  | DMMasterAddrs
  | DMWorkerAddrs
  deriving DecidableEq, Repr

/-- The value of an address list in a builder. -/
def AddrList.get (c : VictoriaMetricsConfig) : AddrList → List String
  | .KafkaAddrs => c.KafkaAddrs
  | .NodeExporterAddrs => c.NodeExporterAddrs
  | .TiDBStatusAddrs => c.TiDBStatusAddrs
  | .TiKVStatusAddrs => c.TiKVStatusAddrs
  | .PDAddrs => c.PDAddrs
  | .TiFlashStatusAddrs => c.TiFlashStatusAddrs
  | .TiFlashLearnerStatusAddrs => c.TiFlashLearnerStatusAddrs
  | .PumpAddrs => c.PumpAddrs
  | .DrainerAddrs => c.DrainerAddrs
  | .CDCAddrs => c.CDCAddrs
  | .ZookeeperAddrs => c.ZookeeperAddrs
  | .BlackboxExporterAddrs => c.BlackboxExporterAddrs
  | .LightningAddrs => c.LightningAddrs
  | .AlertmanagerAddrs => c.AlertmanagerAddrs
  | .DMMasterAddrs => c.DMMasterAddrs
  | .DMWorkerAddrs => c.DMWorkerAddrs

/-- What a call contributes to an address list according to the specification:
the entry `host:port` when the call is to the accumulator of that list, and
nothing otherwise. -/
def AddrList.entry : AddrList → ConfigCall → Option String
  | .KafkaAddrs, .AddKafka host port => some (host ++ ":" ++ Nat.repr port)
  | .NodeExporterAddrs, .AddNodeExpoertor host port => some (host ++ ":" ++ Nat.repr port)
  | .TiDBStatusAddrs, .AddTiDB host port => some (host ++ ":" ++ Nat.repr port)
  | .TiKVStatusAddrs, .AddTiKV host port => some (host ++ ":" ++ Nat.repr port)
  | .PDAddrs, .AddPD host port => some (host ++ ":" ++ Nat.repr port)
  | .TiFlashStatusAddrs, .AddTiFlash host port => some (host ++ ":" ++ Nat.repr port)
  | .TiFlashLearnerStatusAddrs, .AddTiFlashLearner host port =>
    some (host ++ ":" ++ Nat.repr port)
  | .PumpAddrs, .AddPump host port => some (host ++ ":" ++ Nat.repr port)
  | .DrainerAddrs, .AddDrainer host port => some (host ++ ":" ++ Nat.repr port)
  | .CDCAddrs, .AddCDC host port => some (host ++ ":" ++ Nat.repr port)
  | .ZookeeperAddrs, .AddZooKeeper host port => some (host ++ ":" ++ Nat.repr port)
  | .BlackboxExporterAddrs, .AddBlackboxExporter host port =>
    some (host ++ ":" ++ Nat.repr port)
  | .LightningAddrs, .AddLightning host port => some (host ++ ":" ++ Nat.repr port)
  | .AlertmanagerAddrs, .AddAlertmanager host port => some (host ++ ":" ++ Nat.repr port)
  | .DMMasterAddrs, .AddDMMaster host port => some (host ++ ":" ++ Nat.repr port)
  | .DMWorkerAddrs, .AddDMWorker host port => some (host ++ ":" ++ Nat.repr port)
  | _, _ => none

/-- The four single-address slots. -/
inductive AddrSlot where
  | PushgatewayAddr
  | BlackboxAddr
  | KafkaExporterAddr
  | GrafanaAddr
  deriving DecidableEq, Repr

/-- The value of a single-address slot in a builder. -/
def AddrSlot.get (c : VictoriaMetricsConfig) : AddrSlot → String
  | .PushgatewayAddr => c.PushgatewayAddr
  | .BlackboxAddr => c.BlackboxAddr
  | .KafkaExporterAddr => c.KafkaExporterAddr
  | .GrafanaAddr => c.GrafanaAddr

/-- What a call assigns to a slot according to the specification: `host:port`
when the call is to the setter of that slot, and nothing otherwise. -/
def AddrSlot.entry : AddrSlot → ConfigCall → Option String
  | .PushgatewayAddr, .AddPushgateway host port => some (host ++ ":" ++ Nat.repr port)
  | .BlackboxAddr, .AddBlackbox host port => some (host ++ ":" ++ Nat.repr port)
  | .KafkaExporterAddr, .AddKafkaExporter host port => some (host ++ ":" ++ Nat.repr port)
  | .GrafanaAddr, .AddGrafana host port => some (host ++ ":" ++ Nat.repr port)
  | _, _ => none

/-! ## The retention window, as the specification describes it -/

/-- The shape the specification gives for a retention window: one digit from
`1` to `9`, then any number of digits from `0` to `9`, then the letter `d`, and
nothing before or after. -/
def isRetentionLiteral (s : List Char) : Bool :=
  match s with
  | [] => false
  | c :: t =>
    decide ('1' ≤ c ∧ c ≤ '9') && (t.getLast? == some 'd') &&
      t.dropLast.all (fun x => decide ('0' ≤ x ∧ x ≤ '9'))

/-- Digits from `0` to `9` followed by a final `d`, read from the left. -/
def digitsThenD : List Char → Bool
  | [] => false
  | c :: t => (c == 'd' && t.isEmpty) || (decide ('0' ≤ c ∧ c ≤ '9') && digitsThenD t)

/-! ## The template path and the rendering contract, as the specification describes them -/

/-- The argument of a call that sets the override template path. -/
def ScriptCall.tplArg : ScriptCall → Option String
  | .WithTPLFile fname => some fname
  | _ => none

/-- The override template path after a sequence of calls: the argument of the
last `WithTPLFile`, when there is one. -/
def lastTPLFile (calls : List ScriptCall) : Option String :=
  (calls.filterMap ScriptCall.tplArg).getLast?

/-- The template path that the script builder reads after a sequence of calls on
a fresh builder: the last override when it is not the empty string, and the
embedded asset otherwise. -/
def chosenTemplatePath (calls : List ScriptCall) : String :=
  match lastTPLFile calls with
  | some fname => if fname = "" then "/templates/scripts/run_prometheus.sh.tpl" else fname
  | none => "/templates/scripts/run_prometheus.sh.tpl"

/-- The contract of a builder's `Config` and `ConfigToFile` towards its
collaborators, for the template path `fp` and the data `data`.  A failure of the
asset read, of the parse or of the execution is returned unchanged by both,
and `ConfigToFile` then leaves the file system alone and does not call the sink.
When rendering succeeds, `Config` returns the bytes and `ConfigToFile` calls the
sink once, with the path, the bytes and mode `0755`, and returns its result. -/
def RenderContract {Tmpl FS : Type} (env : Env Tmpl FS) (fp : String) (data : TemplateData)
    (config : World FS → Except GoError String × World FS)
    (configToFile : String → World FS → Option GoError × World FS) : Prop :=
  ∀ (file : String) (w : World FS),
    (∀ e, env.ReadFile fp = .error e →
      (config w).1 = .error e ∧ (configToFile file w).1 = some e ∧
      (configToFile file w).2.fs = w.fs ∧ (configToFile file w).2.writes = w.writes) ∧
    (∀ tpl e, env.ReadFile fp = .ok tpl → env.Parse tpl = .error e →
      (config w).1 = .error e ∧ (configToFile file w).1 = some e ∧
      (configToFile file w).2.fs = w.fs ∧ (configToFile file w).2.writes = w.writes) ∧
    (∀ tpl tmpl e, env.ReadFile fp = .ok tpl → env.Parse tpl = .ok tmpl →
      env.Execute tmpl data = .error e →
      (config w).1 = .error e ∧ (configToFile file w).1 = some e ∧
      (configToFile file w).2.fs = w.fs ∧ (configToFile file w).2.writes = w.writes) ∧
    (∀ tpl tmpl content, env.ReadFile fp = .ok tpl → env.Parse tpl = .ok tmpl →
      env.Execute tmpl data = .ok content →
      (config w).1 = .ok content ∧
      (configToFile file w).1 = (env.WriteFile file content 0o755 w.fs).1 ∧
      (configToFile file w).2.fs = (env.WriteFile file content 0o755 w.fs).2 ∧
      (configToFile file w).2.writes = w.writes ++ [(file, content, 0o755)])

/-! ### A small environment to run the builders in -/

deriving instance DecidableEq for Except

/-- A file system that is the list of the files written, the newest first. -/
abbrev SampleFS := List (String × String × Nat)

/-- An environment with the given assets.  Its template engine rejects the text
`<unclosed` at parsing and the text `<missing-field>` at execution, and renders every
other text as itself; its sink refuses the empty path. -/
def sampleEnv (assets : List (String × String)) : Env String SampleFS where
  ReadFile fp :=
    match assets.lookup fp with
    | some tpl => .ok tpl
    | none => .error ⟨"file does not exist"⟩
  Parse tpl := if tpl = "<unclosed" then .error ⟨"unclosed action"⟩ else .ok tpl
  Execute tmpl _ :=
    if tmpl = "<missing-field>" then .error ⟨"can't evaluate field Missing"⟩ else .ok tmpl
  WriteFile file data perm fs :=
    if file = "" then (some ⟨"open : no such file or directory"⟩, fs)
    else (none, (file, data, perm) :: fs)

/-- The world before anything has happened. -/
def emptyWorld : World SampleFS := ⟨[], [], []⟩

/-! ## Reading an address entry back -/

/-- The text before and the text after the last occurrence of `sep`. -/
def splitLast (sep : Char) : List Char → Option (List Char × List Char)
  | [] => none
  | c :: t =>
    match splitLast sep t with
    | some (before, after) => some (c :: before, after)
    | none => if c = sep then some ([], t) else none

/-- A decimal numeral without sign and without leading zeros: only digits from
`0` to `9`, at least one, and a first digit `0` only in the numeral `0`. -/
def isCanonicalDecimal (s : List Char) : Bool :=
  !s.isEmpty && s.all (fun x => decide ('0' ≤ x ∧ x ≤ '9')) &&
    (s.head? != some '0' || s == ['0'])

/-- The value of a decimal numeral, read from the left. -/
def parseDecimal (s : List Char) : Nat :=
  s.foldl (fun acc x => acc * 10 + (x.toNat - '0'.toNat)) 0

/-! ## Theorems: the config builder -/

theorem sprintf_eq (host : String) (port : Nat) :
    fmt.Sprintf_s_d host port = host ++ ":" ++ Nat.repr port := rfl

theorem runConfigCalls_cons (c : VictoriaMetricsConfig) (call : ConfigCall)
    (calls : List ConfigCall) :
    runConfigCalls c (call :: calls) = runConfigCalls (call.run c) calls := rfl

theorem addrList_run (f : AddrList) (c : VictoriaMetricsConfig) (call : ConfigCall) :
    f.get (call.run c) = f.get c ++ (f.entry call).toList := by
  cases f <;> cases call <;>
    simp [AddrList.get, AddrList.entry, ConfigCall.run, sprintf_eq,
      VictoriaMetricsConfig.AddKafka, VictoriaMetricsConfig.AddNodeExpoertor,
      VictoriaMetricsConfig.AddTiDB, VictoriaMetricsConfig.AddTiKV, VictoriaMetricsConfig.AddPD,
      VictoriaMetricsConfig.AddTiFlashLearner, VictoriaMetricsConfig.AddTiFlash,
      VictoriaMetricsConfig.AddPump, VictoriaMetricsConfig.AddDrainer,
      VictoriaMetricsConfig.AddCDC, VictoriaMetricsConfig.AddZooKeeper,
      VictoriaMetricsConfig.AddBlackboxExporter, VictoriaMetricsConfig.AddLightning,
      VictoriaMetricsConfig.AddMonitoredServer, VictoriaMetricsConfig.AddAlertmanager,
      VictoriaMetricsConfig.AddPushgateway, VictoriaMetricsConfig.AddBlackbox,
      VictoriaMetricsConfig.AddKafkaExporter, VictoriaMetricsConfig.AddGrafana,
      VictoriaMetricsConfig.AddDMMaster, VictoriaMetricsConfig.AddDMWorker]

theorem addrList_runConfigCalls (f : AddrList) (calls : List ConfigCall)
    (c : VictoriaMetricsConfig) :
    f.get (runConfigCalls c calls) = f.get c ++ calls.filterMap f.entry := by
  induction calls generalizing c with
  | nil => simp [runConfigCalls]
  | cons call calls ih =>
    rw [runConfigCalls_cons, ih, addrList_run]
    cases h : f.entry call <;> simp [List.filterMap_cons, h]

theorem addrSlot_run (s : AddrSlot) (c : VictoriaMetricsConfig) (call : ConfigCall) :
    s.get (call.run c) = (s.entry call).getD (s.get c) := by
  cases s <;> cases call <;>
    simp [AddrSlot.get, AddrSlot.entry, ConfigCall.run, sprintf_eq,
      VictoriaMetricsConfig.AddKafka, VictoriaMetricsConfig.AddNodeExpoertor,
      VictoriaMetricsConfig.AddTiDB, VictoriaMetricsConfig.AddTiKV, VictoriaMetricsConfig.AddPD,
      VictoriaMetricsConfig.AddTiFlashLearner, VictoriaMetricsConfig.AddTiFlash,
      VictoriaMetricsConfig.AddPump, VictoriaMetricsConfig.AddDrainer,
      VictoriaMetricsConfig.AddCDC, VictoriaMetricsConfig.AddZooKeeper,
      VictoriaMetricsConfig.AddBlackboxExporter, VictoriaMetricsConfig.AddLightning,
      VictoriaMetricsConfig.AddMonitoredServer, VictoriaMetricsConfig.AddAlertmanager,
      VictoriaMetricsConfig.AddPushgateway, VictoriaMetricsConfig.AddBlackbox,
      VictoriaMetricsConfig.AddKafkaExporter, VictoriaMetricsConfig.AddGrafana,
      VictoriaMetricsConfig.AddDMMaster, VictoriaMetricsConfig.AddDMWorker]

theorem addrSlot_runConfigCalls (s : AddrSlot) (calls : List ConfigCall)
    (c : VictoriaMetricsConfig) :
    s.get (runConfigCalls c calls) = ((calls.filterMap s.entry).getLast?).getD (s.get c) := by
  induction calls generalizing c with
  | nil => simp [runConfigCalls]
  | cons call calls ih =>
    rw [runConfigCalls_cons, ih, addrSlot_run]
    cases h : s.entry call with
    | none => simp [List.filterMap_cons, h]
    | some a =>
      simp only [List.filterMap_cons, h, Option.getD_some]
      cases hl : List.filterMap s.entry calls with
      | nil => simp
      | cons b l => simp [List.getLast?_eq_getLast _ (List.cons_ne_nil b l)]

theorem seed_run (c : VictoriaMetricsConfig) (call : ConfigCall) :
    (call.run c).ClusterName = c.ClusterName ∧ (call.run c).TLSEnabled = c.TLSEnabled := by
  cases call <;> exact ⟨rfl, rfl⟩

theorem seed_runConfigCalls (calls : List ConfigCall) (c : VictoriaMetricsConfig) :
    (runConfigCalls c calls).ClusterName = c.ClusterName ∧
      (runConfigCalls c calls).TLSEnabled = c.TLSEnabled := by
  induction calls generalizing c with
  | nil => exact ⟨rfl, rfl⟩
  | cons call calls ih =>
    rw [runConfigCalls_cons]
    exact ⟨(ih _).1.trans (seed_run c call).1, (ih _).2.trans (seed_run c call).2⟩

/-- C1: after any finite sequence of accumulator calls on a freshly constructed
config builder, each of the sixteen address lists holds exactly the entries
`host:port` of the calls to its own accumulator, in call order; the calls to
the other accumulators contribute nothing to it. -/
theorem address_lists_collect_own_calls (cluster : String) (enableTLS : Bool)
    (calls : List ConfigCall) (f : AddrList) :
    f.get (runConfigCalls (NewVictoriaMetricsConfig cluster enableTLS) calls)
      = calls.filterMap f.entry := by
  rw [addrList_runConfigCalls]
  cases f <;> simp [AddrList.get, NewVictoriaMetricsConfig]

/-- C5: after any finite sequence of accumulator calls on a freshly constructed
config builder, each single-address slot holds the entry `host:port` of the
last call to its setter, and the empty string when there was no such call. -/
theorem address_slot_last_call_wins (cluster : String) (enableTLS : Bool)
    (calls : List ConfigCall) (s : AddrSlot) :
    s.get (runConfigCalls (NewVictoriaMetricsConfig cluster enableTLS) calls)
      = ((calls.filterMap s.entry).getLast?).getD "" := by
  rw [addrSlot_runConfigCalls]
  cases s <;> simp [AddrSlot.get, NewVictoriaMetricsConfig]

/-- C9: the constructor stores the cluster name and the TLS flag and leaves
every address list, the monitored servers and every single-address slot
empty; no sequence of accumulator calls changes the cluster name or the TLS
flag. -/
theorem constructor_seeds_are_kept (cluster : String) (enableTLS : Bool) :
    (NewVictoriaMetricsConfig cluster enableTLS).ClusterName = cluster ∧
    (NewVictoriaMetricsConfig cluster enableTLS).TLSEnabled = enableTLS ∧
    (∀ f : AddrList, f.get (NewVictoriaMetricsConfig cluster enableTLS) = []) ∧
    (NewVictoriaMetricsConfig cluster enableTLS).MonitoredServers = [] ∧
    (∀ s : AddrSlot, s.get (NewVictoriaMetricsConfig cluster enableTLS) = "") ∧
    ∀ calls : List ConfigCall,
      (runConfigCalls (NewVictoriaMetricsConfig cluster enableTLS) calls).ClusterName = cluster ∧
      (runConfigCalls (NewVictoriaMetricsConfig cluster enableTLS) calls).TLSEnabled
        = enableTLS := by
  refine ⟨rfl, rfl, ?_, rfl, ?_, ?_⟩
  · intro f; cases f <;> rfl
  · intro s; cases s <;> rfl
  · intro calls
    exact seed_runConfigCalls calls _


/-! ## Theorems: the retention pattern -/

theorem digitsThenD_eq (s : List Char) :
    digitsThenD s
      = ((s.getLast? == some 'd') && s.dropLast.all (fun x => decide ('0' ≤ x ∧ x ≤ '9'))) := by
  induction s with
  | nil => rfl
  | cons c t ih =>
    cases t with
    | nil => simp [digitsThenD]
    | cons c2 t2 =>
      rw [digitsThenD, ih]
      simp [List.getLast?_cons_cons, List.dropLast, Bool.and_left_comm]

theorem isEmpty_append_eq {α : Type} (a b : List α) :
    (a ++ b).isEmpty = (a.isEmpty && b.isEmpty) := by
  cases a <;> simp

theorem ends_cat (r s : Regex) (p : Cursor) :
    Regex.ends (.cat r s) p = (Regex.ends r p).flatMap (Regex.ends s) := by
  simp [Regex.ends]

theorem ends_star (r : Regex) (p : Cursor) :
    Regex.ends (.star r) p = Regex.iterate (Regex.ends r) p.rest.length p := by
  simp [Regex.ends]

theorem ends_beginText (i : Nat) (s : List Char) :
    Regex.ends .beginText ⟨i, s⟩ = if i = 0 then [⟨i, s⟩] else [] := by
  simp [Regex.ends]

theorem ends_endText (i : Nat) (s : List Char) :
    Regex.ends .endText ⟨i, s⟩ = if s = [] then [⟨i, s⟩] else [] := by
  simp [Regex.ends]

theorem ends_range_nil (lo hi : Char) (i : Nat) :
    Regex.ends (.range lo hi) ⟨i, []⟩ = [] := by
  simp [Regex.ends]

theorem ends_range_cons (lo hi : Char) (i : Nat) (c : Char) (t : List Char) :
    Regex.ends (.range lo hi) ⟨i, c :: t⟩ = if lo ≤ c ∧ c ≤ hi then [⟨i + 1, t⟩] else [] := by
  simp [Regex.ends]

theorem ends_char_nil (a : Char) (i : Nat) :
    Regex.ends (.char a) ⟨i, []⟩ = [] := by
  simp [Regex.ends]

theorem ends_char_cons (a : Char) (i : Nat) (c : Char) (t : List Char) :
    Regex.ends (.char a) ⟨i, c :: t⟩ = if c = a then [⟨i + 1, t⟩] else [] := by
  simp [Regex.ends]

theorem ends_suffix_isEmpty (i : Nat) (s : List Char) :
    (Regex.ends (.cat (.char 'd') .endText) ⟨i, s⟩).isEmpty
      = !(match s with
          | [] => false
          | c :: t => c == 'd' && t.isEmpty) := by
  rw [ends_cat]
  cases s with
  | nil => simp [ends_char_nil]
  | cons c t =>
    rw [ends_char_cons]
    by_cases hc : c = 'd'
    · cases t <;> simp [ends_endText, hc]
    · simp [hc]

theorem iterate_digits_isEmpty (s : List Char) :
    ∀ (fuel i : Nat), s.length ≤ fuel →
      ((Regex.iterate (Regex.ends (.range '0' '9')) fuel ⟨i, s⟩).flatMap
          (Regex.ends (.cat (.char 'd') .endText))).isEmpty
        = !digitsThenD s := by
  induction s with
  | nil =>
    intro fuel i _
    have hsuf := ends_suffix_isEmpty i []
    cases fuel <;>
      simp [Regex.iterate, ends_range_nil, digitsThenD, isEmpty_append_eq, hsuf]
  | cons c t ih =>
    intro fuel i hfuel
    cases fuel with
    | zero => simp at hfuel
    | succ f =>
      have hf : t.length ≤ f := by simpa using hfuel
      have hsuf := ends_suffix_isEmpty i (c :: t)
      simp only [Regex.iterate, List.flatMap_cons, isEmpty_append_eq, hsuf, digitsThenD,
        ends_range_cons]
      by_cases hd : '0' ≤ c ∧ c ≤ '9'
      · simp [ih f (i + 1) hf, hd, isEmpty_append_eq]
      · simp [hd]

theorem ends_retention_later (i : Nat) (s : List Char) :
    Regex.ends retentionPattern ⟨i + 1, s⟩ = [] := by
  unfold retentionPattern
  rw [ends_cat, ends_beginText]
  simp

theorem ends_retention_start (s : List Char) :
    (Regex.ends retentionPattern ⟨0, s⟩).isEmpty = !isRetentionLiteral s := by
  unfold retentionPattern
  rw [ends_cat, ends_beginText, if_pos rfl, List.flatMap_cons, List.flatMap_nil,
    List.append_nil, ends_cat]
  cases s with
  | nil => simp [ends_range_nil, isRetentionLiteral]
  | cons c t =>
    rw [ends_range_cons]
    by_cases h1 : '1' ≤ c ∧ c ≤ '9'
    · have := iterate_digits_isEmpty t t.length 1 (le_refl _)
      rw [if_pos h1, List.flatMap_cons, List.flatMap_nil, List.append_nil, ends_cat, ends_star]
      simp only [zero_add]
      rw [this, digitsThenD_eq]
      simp [isRetentionLiteral, h1]
    · rw [if_neg h1]
      simp [isRetentionLiteral, h1]

/-- The matcher on the pattern `^[1-9]\d*d$` decides the shape of the
specification. -/
theorem matchString_retention (s : String) :
    regexp.MatchString retentionPattern s = isRetentionLiteral s.toList := by
  unfold regexp.MatchString
  rw [List.range_succ_eq_map, List.any_cons, List.any_map]
  have hlater : (List.range s.length).any
      ((fun i => !(Regex.ends retentionPattern ⟨i, s.toList.drop i⟩).isEmpty) ∘ Nat.succ)
        = false := by
    rw [List.any_eq_false]
    intro i _
    simp [ends_retention_later]
  rw [hlater, Bool.or_false, List.drop_zero, ends_retention_start, Bool.not_not]

/-! ## Theorems: the script builder -/

theorem runScriptCalls_cons (c : VictoriaMetricsScript) (call : ScriptCall)
    (calls : List ScriptCall) :
    runScriptCalls c (call :: calls) = runScriptCalls (call.run c) calls := rfl

theorem withRetention_retention (c : VictoriaMetricsScript) (r : String) :
    (c.WithRetention r).Retention = if isRetentionLiteral r.toList then r else "30d" := by
  unfold VictoriaMetricsScript.WithRetention
  simp only [matchString_retention, String.toList]
  by_cases hv : isRetentionLiteral r.data = true
  · have hr : r ≠ "" := by
      rintro rfl
      simp [isRetentionLiteral] at hv
    simp [hr, hv]
  · simp [hv]

theorem thirty_days_is_literal : isRetentionLiteral "30d".toList = true := by decide

theorem retention_kept (c : VictoriaMetricsScript) (calls : List ScriptCall)
    (h : ∀ m ∈ calls, m.isWithRetention = false) :
    (runScriptCalls c calls).Retention = c.Retention := by
  induction calls generalizing c with
  | nil => rfl
  | cons call calls ih =>
    rw [runScriptCalls_cons, ih _ (fun m hm => h m (List.mem_cons_of_mem _ hm))]
    have hc := h call (List.mem_cons_self _ _)
    cases call <;> first | rfl | simp [ScriptCall.isWithRetention] at hc

theorem port_kept (c : VictoriaMetricsScript) (calls : List ScriptCall)
    (h : ∀ m ∈ calls, m.isWithPort = false) :
    (runScriptCalls c calls).Port = c.Port := by
  induction calls generalizing c with
  | nil => rfl
  | cons call calls ih =>
    rw [runScriptCalls_cons, ih _ (fun m hm => h m (List.mem_cons_of_mem _ hm))]
    have hc := h call (List.mem_cons_self _ _)
    cases call with
    | WithPort p => simp [ScriptCall.isWithPort] at hc
    | WithNumaNode n => rfl
    | WithRetention r =>
      simp only [ScriptCall.run, VictoriaMetricsScript.WithRetention]
      split <;> rfl
    | WithTPLFile f => rfl

/-- C2: `WithRetention` stores its argument when the argument has the shape of
`^[1-9]\d*d$` (a digit from 1 to 9, then digits from 0 to 9, then `d`, nothing
before or after) and stores `"30d"` for every other argument, the empty
string included; it is a total function, so the call never fails. -/
theorem withRetention_stores_literal_or_default (c : VictoriaMetricsScript) (r : String) :
    (c.WithRetention r).Retention = (if isRetentionLiteral r.toList then r else "30d") ∧
    (c.WithRetention "").Retention = "30d" ∧
    regexp.MatchString retentionPattern r = isRetentionLiteral r.toList :=
  ⟨withRetention_retention c r, by rw [withRetention_retention]; rfl, matchString_retention r⟩

/-- C3: whatever string is passed to `WithRetention`, the stored retention
matches `^[1-9]\d*d$`. -/
theorem withRetention_stored_value_matches (c : VictoriaMetricsScript) (r : String) :
    regexp.MatchString retentionPattern (c.WithRetention r).Retention = true := by
  rw [matchString_retention, withRetention_retention]
  by_cases hv : isRetentionLiteral r.toList = true
  · rw [if_pos hv]; exact hv
  · rw [if_neg hv]; exact thirty_days_is_literal

/-- C4, the claim fails on a freshly constructed builder: its retention is the
empty string, not `"30d"`, and does not match `^[1-9]\d*d$`. -/
theorem constructor_leaves_retention_empty :
    ¬ ((NewVictoriaMetricsScript "10.0.0.1" "/deploy" "/data" "/log").Retention = "30d") ∧
    regexp.MatchString retentionPattern
      (NewVictoriaMetricsScript "10.0.0.1" "/deploy" "/data" "/log").Retention = false := by
  decide

/-- C4 as amended: the default `"30d"` is applied by the retention mutator, not
by the constructor.  While `WithRetention` has not been called the retention is
the empty string, which does not match the pattern; a call of `WithRetention`
with the empty string stores `"30d"`, and later calls of `WithPort`,
`WithNumaNode` and `WithTPLFile` keep it. -/
theorem retention_default_comes_from_mutator (ip deployDir dataDir logDir : String)
    (calls : List ScriptCall) (h : ∀ m ∈ calls, m.isWithRetention = false) :
    (runScriptCalls (NewVictoriaMetricsScript ip deployDir dataDir logDir) calls).Retention = "" ∧
    regexp.MatchString retentionPattern
      (runScriptCalls (NewVictoriaMetricsScript ip deployDir dataDir logDir) calls).Retention
        = false ∧
    ∀ c : VictoriaMetricsScript,
      (runScriptCalls (c.WithRetention "") calls).Retention = "30d" ∧
      regexp.MatchString retentionPattern (runScriptCalls (c.WithRetention "") calls).Retention
        = true := by
  have h0 : (runScriptCalls (NewVictoriaMetricsScript ip deployDir dataDir logDir)
      calls).Retention = "" := retention_kept _ calls h
  refine ⟨h0, ?_, ?_⟩
  · rw [h0]; decide
  · intro c
    have h1 : (runScriptCalls (c.WithRetention "") calls).Retention = "30d" := by
      rw [retention_kept _ calls h, withRetention_retention]; rfl
    refine ⟨h1, ?_⟩
    rw [h1]; decide

theorem retention_default_comes_from_mutator_witness :
    (∀ m ∈ [ScriptCall.WithPort 9091, .WithNumaNode "0", .WithTPLFile "/tmp/run.tpl"],
        m.isWithRetention = false) ∧
    (runScriptCalls (NewVictoriaMetricsScript "10.0.0.1" "/deploy" "/data" "/log")
      [.WithPort 9091, .WithNumaNode "0", .WithTPLFile "/tmp/run.tpl"]).Retention = "" :=
  ⟨by decide,
    (retention_default_comes_from_mutator "10.0.0.1" "/deploy" "/data" "/log"
      [.WithPort 9091, .WithNumaNode "0", .WithTPLFile "/tmp/run.tpl"] (by decide)).1⟩

/-- C6: the constructor stores its four arguments and the port `9090`; the port
is still `9090` after any sequence of mutator calls without `WithPort`; and
after `WithPort p` the port is `p`. -/
theorem port_defaults_to_9090 (ip deployDir dataDir logDir : String)
    (calls : List ScriptCall) (h : ∀ m ∈ calls, m.isWithPort = false) :
    (NewVictoriaMetricsScript ip deployDir dataDir logDir).Port = 9090 ∧
    (NewVictoriaMetricsScript ip deployDir dataDir logDir).IP = ip ∧
    (NewVictoriaMetricsScript ip deployDir dataDir logDir).DeployDir = deployDir ∧
    (NewVictoriaMetricsScript ip deployDir dataDir logDir).DataDir = dataDir ∧
    (NewVictoriaMetricsScript ip deployDir dataDir logDir).LogDir = logDir ∧
    (runScriptCalls (NewVictoriaMetricsScript ip deployDir dataDir logDir) calls).Port = 9090 ∧
    ∀ (c : VictoriaMetricsScript) (p : Int), (c.WithPort p).Port = p :=
  ⟨rfl, rfl, rfl, rfl, rfl, port_kept _ calls h, fun _ _ => rfl⟩

theorem port_defaults_to_9090_witness :
    (∀ m ∈ [ScriptCall.WithRetention "45d", .WithNumaNode "0", .WithTPLFile "/tmp/run.tpl"],
        m.isWithPort = false) ∧
    (runScriptCalls (NewVictoriaMetricsScript "10.0.0.1" "/deploy" "/data" "/log")
      [.WithRetention "45d", .WithNumaNode "0", .WithTPLFile "/tmp/run.tpl"]).Port = 9090 :=
  ⟨by decide,
    (port_defaults_to_9090 "10.0.0.1" "/deploy" "/data" "/log"
      [.WithRetention "45d", .WithNumaNode "0", .WithTPLFile "/tmp/run.tpl"]
      (by decide)).2.2.2.2.2.1⟩

/-! ## Theorems: rendering -/

theorem scriptsTemplate_path :
    path.Join ["/templates", "scripts", "run_prometheus.sh.tpl"]
      = "/templates/scripts/run_prometheus.sh.tpl" := by decide

theorem configTemplate_path :
    path.Join ["/templates", "config", "VictoriaMetrics.yml.tpl"]
      = "/templates/config/VictoriaMetrics.yml.tpl" := by decide

theorem tplFile_run (c : VictoriaMetricsScript) (call : ScriptCall) :
    (call.run c).tplFile = (call.tplArg).getD c.tplFile := by
  cases call with
  | WithPort p => rfl
  | WithNumaNode n => rfl
  | WithRetention r =>
    simp only [ScriptCall.run, VictoriaMetricsScript.WithRetention, ScriptCall.tplArg]
    split <;> rfl
  | WithTPLFile f => rfl

theorem tplFile_runScriptCalls (calls : List ScriptCall) (c : VictoriaMetricsScript) :
    (runScriptCalls c calls).tplFile = (lastTPLFile calls).getD c.tplFile := by
  unfold lastTPLFile
  induction calls generalizing c with
  | nil => rfl
  | cons call calls ih =>
    rw [runScriptCalls_cons, ih, tplFile_run]
    cases h : call.tplArg with
    | none => simp [List.filterMap_cons, h]
    | some a =>
      simp only [List.filterMap_cons, h, Option.getD_some]
      cases hl : List.filterMap ScriptCall.tplArg calls with
      | nil => simp
      | cons b l => simp [List.getLast?_eq_getLast _ (List.cons_ne_nil b l)]

theorem templatePath_runScriptCalls (ip deployDir dataDir logDir : String)
    (calls : List ScriptCall) :
    (runScriptCalls (NewVictoriaMetricsScript ip deployDir dataDir logDir) calls).templatePath
      = chosenTemplatePath calls := by
  unfold VictoriaMetricsScript.templatePath chosenTemplatePath
  rw [tplFile_runScriptCalls, scriptsTemplate_path]
  cases lastTPLFile calls with
  | none => simp [NewVictoriaMetricsScript]
  | some f => simp

theorem script_config_eq {Tmpl FS : Type} (env : Env Tmpl FS) (c : VictoriaMetricsScript)
    (w : World FS) :
    c.Config env w =
      ((match env.ReadFile c.templatePath with
        | .error err => .error err
        | .ok tpl => c.ConfigWithTemplate env tpl),
       { w with reads := w.reads ++ [c.templatePath] }) := by
  unfold VictoriaMetricsScript.Config embed.ReadFile
  dsimp only
  cases env.ReadFile c.templatePath <;> rfl

theorem config_config_eq {Tmpl FS : Type} (env : Env Tmpl FS) (c : VictoriaMetricsConfig)
    (w : World FS) :
    c.Config env w =
      ((match env.ReadFile "/templates/config/VictoriaMetrics.yml.tpl" with
        | .error err => .error err
        | .ok tpl => c.ConfigWithTemplate env tpl),
       { w with reads := w.reads ++ ["/templates/config/VictoriaMetrics.yml.tpl"] }) := by
  unfold VictoriaMetricsConfig.Config embed.ReadFile
  rw [configTemplate_path]
  dsimp only
  cases env.ReadFile "/templates/config/VictoriaMetrics.yml.tpl" <;> rfl

theorem renderContract_script {Tmpl FS : Type} (env : Env Tmpl FS)
    (c : VictoriaMetricsScript) :
    RenderContract env c.templatePath (.script c) (c.Config env) (c.ConfigToFile env) := by
  intro file w
  refine ⟨?_, ?_, ?_, ?_⟩
  · intro e hr
    simp [VictoriaMetricsScript.ConfigToFile, script_config_eq, hr]
  · intro tpl e hr hp
    simp [VictoriaMetricsScript.ConfigToFile, script_config_eq, hr,
      VictoriaMetricsScript.ConfigWithTemplate, hp]
  · intro tpl tmpl e hr hp he
    simp [VictoriaMetricsScript.ConfigToFile, script_config_eq, hr,
      VictoriaMetricsScript.ConfigWithTemplate, hp, he]
  · intro tpl tmpl content hr hp he
    simp [VictoriaMetricsScript.ConfigToFile, script_config_eq, hr,
      VictoriaMetricsScript.ConfigWithTemplate, hp, he, ioutil.WriteFile]

theorem renderContract_config {Tmpl FS : Type} (env : Env Tmpl FS)
    (c : VictoriaMetricsConfig) :
    RenderContract env "/templates/config/VictoriaMetrics.yml.tpl" (.config c) (c.Config env)
      (c.ConfigToFile env) := by
  intro file w
  refine ⟨?_, ?_, ?_, ?_⟩
  · intro e hr
    simp [VictoriaMetricsConfig.ConfigToFile, config_config_eq, hr]
  · intro tpl e hr hp
    simp [VictoriaMetricsConfig.ConfigToFile, config_config_eq, hr,
      VictoriaMetricsConfig.ConfigWithTemplate, hp]
  · intro tpl tmpl e hr hp he
    simp [VictoriaMetricsConfig.ConfigToFile, config_config_eq, hr,
      VictoriaMetricsConfig.ConfigWithTemplate, hp, he]
  · intro tpl tmpl content hr hp he
    simp [VictoriaMetricsConfig.ConfigToFile, config_config_eq, hr,
      VictoriaMetricsConfig.ConfigWithTemplate, hp, he, ioutil.WriteFile]

/-- C7, the claim fails on a fresh builder: the path handed to the asset reader
is `/templates/scripts/run_prometheus.sh.tpl`, with a leading slash, so a reader
that holds the asset under `templates/scripts/run_prometheus.sh.tpl` does not
find it.  It also fails after `WithTPLFile ""`: the empty override is not read,
the embedded asset is. -/
theorem default_template_path_is_rooted :
    ((NewVictoriaMetricsScript "10.0.0.1" "/deploy" "/data" "/log").Config
        (sampleEnv [("templates/scripts/run_prometheus.sh.tpl", "P=9090")]) emptyWorld).2.reads
      = ["/templates/scripts/run_prometheus.sh.tpl"] ∧
    ¬ (((NewVictoriaMetricsScript "10.0.0.1" "/deploy" "/data" "/log").Config
        (sampleEnv [("templates/scripts/run_prometheus.sh.tpl", "P=9090")]) emptyWorld).2.reads
      = ["templates/scripts/run_prometheus.sh.tpl"]) ∧
    ((NewVictoriaMetricsScript "10.0.0.1" "/deploy" "/data" "/log").Config
        (sampleEnv [("templates/scripts/run_prometheus.sh.tpl", "P=9090")]) emptyWorld).1
      = .error ⟨"file does not exist"⟩ ∧
    (((NewVictoriaMetricsScript "10.0.0.1" "/deploy" "/data" "/log").WithTPLFile "").Config
        (sampleEnv [("", "P=9090")]) emptyWorld).2.reads
      = ["/templates/scripts/run_prometheus.sh.tpl"] := by
  decide

/-- C7 as amended: after any sequence of mutator calls on a fresh script builder,
`Config` makes exactly one call to the asset reader and touches nothing else.
The path read is the last override set by `WithTPLFile` when that is not the
empty string, and `/templates/scripts/run_prometheus.sh.tpl` otherwise; the
template handed to the template engine is the content read from that path, and
a failed read is returned as it is. -/
theorem config_reads_chosen_template {Tmpl FS : Type} (env : Env Tmpl FS)
    (ip deployDir dataDir logDir : String) (calls : List ScriptCall) (w : World FS) :
    ((runScriptCalls (NewVictoriaMetricsScript ip deployDir dataDir logDir) calls).Config
        env w).2.reads = w.reads ++ [chosenTemplatePath calls] ∧
    ((runScriptCalls (NewVictoriaMetricsScript ip deployDir dataDir logDir) calls).Config
        env w).2.fs = w.fs ∧
    ((runScriptCalls (NewVictoriaMetricsScript ip deployDir dataDir logDir) calls).Config
        env w).2.writes = w.writes ∧
    ((runScriptCalls (NewVictoriaMetricsScript ip deployDir dataDir logDir) calls).Config
        env w).1 =
      (match env.ReadFile (chosenTemplatePath calls) with
        | .error err => .error err
        | .ok tpl =>
          (runScriptCalls (NewVictoriaMetricsScript ip deployDir dataDir logDir)
            calls).ConfigWithTemplate env tpl) := by
  rw [script_config_eq, templatePath_runScriptCalls]
  exact ⟨rfl, rfl, rfl, rfl⟩

/-- C8: for both builders, an error of the asset read, of the template parse or
of the template execution is returned unchanged by `Config` and by
`ConfigToFile`, which then neither changes the file system nor calls the sink;
when rendering succeeds `ConfigToFile` calls the sink exactly once, with the
given path, the rendered bytes and mode `0755`, and returns the sink's result
unchanged. -/
theorem errors_propagate_unchanged {Tmpl FS : Type} (env : Env Tmpl FS) :
    (∀ c : VictoriaMetricsConfig,
      RenderContract env "/templates/config/VictoriaMetrics.yml.tpl" (.config c)
        (c.Config env) (c.ConfigToFile env)) ∧
    (∀ c : VictoriaMetricsScript,
      RenderContract env c.templatePath (.script c) (c.Config env) (c.ConfigToFile env)) :=
  ⟨renderContract_config env, renderContract_script env⟩

theorem errors_propagate_unchanged_witness :
    (sampleEnv []).ReadFile "/templates/config/VictoriaMetrics.yml.tpl"
      = .error ⟨"file does not exist"⟩ ∧
    ((NewVictoriaMetricsConfig "c1" false).ConfigToFile (sampleEnv []) "/out/vm.yml"
      emptyWorld).1 = some ⟨"file does not exist"⟩ ∧
    ((NewVictoriaMetricsScript "10.0.0.1" "/deploy" "/data" "/log").ConfigToFile
      (sampleEnv [("/templates/scripts/run_prometheus.sh.tpl", "<unclosed")]) "/out/run.sh"
      emptyWorld).2.writes = [] ∧
    ((NewVictoriaMetricsScript "10.0.0.1" "/deploy" "/data" "/log").ConfigToFile
      (sampleEnv [("/templates/scripts/run_prometheus.sh.tpl", "<missing-field>")]) "/out/run.sh"
      emptyWorld).2.fs = [] ∧
    ((NewVictoriaMetricsScript "10.0.0.1" "/deploy" "/data" "/log").ConfigToFile
      (sampleEnv [("/templates/scripts/run_prometheus.sh.tpl", "P=9090")]) "/out/run.sh"
      emptyWorld).2.writes = [("/out/run.sh", "P=9090", 0o755)] :=
  ⟨by decide,
    (((errors_propagate_unchanged (sampleEnv [])).1 (NewVictoriaMetricsConfig "c1" false)
      "/out/vm.yml" emptyWorld).1 ⟨"file does not exist"⟩ (by decide)).2.1,
    (((errors_propagate_unchanged
        (sampleEnv [("/templates/scripts/run_prometheus.sh.tpl", "<unclosed")])).2
      (NewVictoriaMetricsScript "10.0.0.1" "/deploy" "/data" "/log")
      "/out/run.sh" emptyWorld).2.1 "<unclosed" ⟨"unclosed action"⟩ (by decide) (by decide)).2.2.2,
    (((errors_propagate_unchanged
        (sampleEnv [("/templates/scripts/run_prometheus.sh.tpl", "<missing-field>")])).2
      (NewVictoriaMetricsScript "10.0.0.1" "/deploy" "/data" "/log")
      "/out/run.sh" emptyWorld).2.2.1 "<missing-field>" "<missing-field>"
        ⟨"can't evaluate field Missing"⟩ (by decide) (by decide) (by decide)).2.2.1,
    (((errors_propagate_unchanged
        (sampleEnv [("/templates/scripts/run_prometheus.sh.tpl", "P=9090")])).2
      (NewVictoriaMetricsScript "10.0.0.1" "/deploy" "/data" "/log")
      "/out/run.sh" emptyWorld).2.2.2 "P=9090" "P=9090" "P=9090"
        (by decide) (by decide) (by decide)).2.2.2⟩

/-! ## Theorems: the address entry -/

theorem splitLast_none (sep : Char) (s : List Char) (h : sep ∉ s) : splitLast sep s = none := by
  induction s with
  | nil => rfl
  | cons c t ih =>
    have hc : ¬ c = sep := fun e => h (e ▸ List.mem_cons_self _ _)
    have ht : sep ∉ t := fun m => h (List.mem_cons_of_mem _ m)
    simp [splitLast, ih ht, hc]

theorem splitLast_append (sep : Char) (before after : List Char) (h : sep ∉ after) :
    splitLast sep (before ++ sep :: after) = some (before, after) := by
  induction before with
  | nil => simp [splitLast, splitLast_none sep after h]
  | cons c t ih => simp [splitLast, ih]

theorem digitChar_isDigit (d : Nat) (h : d < 10) :
    '0' ≤ Nat.digitChar d ∧ Nat.digitChar d ≤ '9' := by
  interval_cases d <;> decide

theorem digitChar_value (d : Nat) (h : d < 10) :
    (Nat.digitChar d).toNat - '0'.toNat = d := by
  interval_cases d <;> decide

theorem digitChar_ne_zero (d : Nat) (h0 : 0 < d) (h : d < 10) : Nat.digitChar d ≠ '0' := by
  interval_cases d <;> decide

theorem toDigitsCore_digits (fuel : Nat) :
    ∀ (n : Nat) (ds : List Char), (∀ x ∈ ds, '0' ≤ x ∧ x ≤ '9') →
      ∀ x ∈ Nat.toDigitsCore 10 fuel n ds, '0' ≤ x ∧ x ≤ '9' := by
  induction fuel with
  | zero => intro n ds hds; simpa [Nat.toDigitsCore] using hds
  | succ f ih =>
    intro n ds hds
    have hcons : ∀ x ∈ Nat.digitChar (n % 10) :: ds, '0' ≤ x ∧ x ≤ '9' := by
      intro x hx
      rcases List.mem_cons.1 hx with rfl | hx
      · exact digitChar_isDigit _ (Nat.mod_lt _ (by decide))
      · exact hds x hx
    simp only [Nat.toDigitsCore]
    split
    · exact hcons
    · exact ih _ _ hcons

theorem parseDecimal_foldl (s : List Char) (a : Nat) :
    s.foldl (fun acc x => acc * 10 + (x.toNat - '0'.toNat)) a
      = a * 10 ^ s.length + parseDecimal s := by
  unfold parseDecimal
  induction s generalizing a with
  | nil => simp
  | cons c t ih =>
    rw [List.foldl_cons, List.foldl_cons, ih, ih (0 * 10 + _)]
    simp only [List.length_cons, pow_succ]
    ring

theorem parseDecimal_cons (c : Char) (t : List Char) :
    parseDecimal (c :: t) = (c.toNat - '0'.toNat) * 10 ^ t.length + parseDecimal t := by
  have := parseDecimal_foldl t (0 * 10 + (c.toNat - '0'.toNat))
  simpa [parseDecimal] using this

theorem toDigitsCore_value (fuel : Nat) :
    ∀ (n : Nat) (ds : List Char), n < fuel →
      parseDecimal (Nat.toDigitsCore 10 fuel n ds) = n * 10 ^ ds.length + parseDecimal ds := by
  induction fuel with
  | zero => intro n ds h; omega
  | succ f ih =>
    intro n ds h
    simp only [Nat.toDigitsCore]
    split
    · rename_i h0
      rw [parseDecimal_cons, digitChar_value _ (Nat.mod_lt _ (by decide))]
      have : n % 10 = n := by omega
      rw [this]
    · rename_i h0
      have hlt : n / 10 < f := by omega
      rw [ih _ _ hlt, parseDecimal_cons, digitChar_value _ (Nat.mod_lt _ (by decide))]
      simp only [List.length_cons, pow_succ]
      have hn : n = n / 10 * 10 + n % 10 := by omega
      nth_rewrite 3 [hn]
      ring

theorem toDigitsCore_head (fuel : Nat) :
    ∀ (n : Nat) (ds : List Char), 0 < n → n < fuel →
      ∃ d rest, Nat.toDigitsCore 10 fuel n ds = d :: rest ∧ d ≠ '0' := by
  induction fuel with
  | zero => intro n ds _ h; omega
  | succ f ih =>
    intro n ds hpos h
    simp only [Nat.toDigitsCore]
    split
    · rename_i h0
      refine ⟨_, _, rfl, digitChar_ne_zero _ ?_ (Nat.mod_lt _ (by decide))⟩
      omega
    · rename_i h0
      exact ih _ _ (by omega) (by omega)

theorem repr_toList (n : Nat) : (Nat.repr n).toList = Nat.toDigits 10 n := rfl

theorem repr_digits (n : Nat) : ∀ x ∈ (Nat.repr n).toList, '0' ≤ x ∧ x ≤ '9' := by
  rw [repr_toList]
  exact toDigitsCore_digits _ _ _ (by simp)

theorem repr_value (n : Nat) : parseDecimal (Nat.repr n).toList = n := by
  rw [repr_toList]
  have := toDigitsCore_value (n + 1) n [] (Nat.lt_succ_self n)
  simpa [parseDecimal, Nat.toDigits] using this

theorem repr_canonical (n : Nat) : isCanonicalDecimal (Nat.repr n).toList = true := by
  have hd := repr_digits n
  rw [repr_toList] at hd ⊢
  rcases Nat.eq_zero_or_pos n with rfl | hpos
  · decide
  · obtain ⟨d, rest, hr, hne⟩ := toDigitsCore_head (n + 1) n [] hpos (Nat.lt_succ_self n)
    unfold Nat.toDigits at hd ⊢
    rw [hr] at hd ⊢
    have hall : (d :: rest).all (fun x => decide ('0' ≤ x ∧ x ≤ '9')) = true := by
      rw [List.all_eq_true]
      intro x hx
      exact decide_eq_true (hd x hx)
    simp only [isCanonicalDecimal, hall]
    simp [hne]

theorem repr_no_colon (n : Nat) : ':' ∉ (Nat.repr n).toList := by
  intro h
  have := repr_digits n ':' h
  exact absurd this (by decide)

theorem sprintf_toList (host : String) (port : Nat) :
    (fmt.Sprintf_s_d host port).toList = host.toList ++ ':' :: (Nat.repr port).toList := by
  simp [fmt.Sprintf_s_d, fmtUint, Nat.repr, String.toList]

theorem sprintf_split (host : String) (port : Nat) :
    splitLast ':' (fmt.Sprintf_s_d host port).toList = some (host.toList, (Nat.repr port).toList) := by
  rw [sprintf_toList]
  exact splitLast_append ':' _ _ (repr_no_colon port)

/-- C10: the entry `host:port` determines the host and the port.  Splitting it
at its last colon gives back the host, whatever colons the host itself holds,
and a numeral of digits only, without sign and without leading zeros, whose
value is the port; hence two entries are equal only for the same host and the
same port. -/
theorem address_entry_is_invertible (host : String) (port : Nat) :
    splitLast ':' (fmt.Sprintf_s_d host port).toList = some (host.toList, (Nat.repr port).toList) ∧
    isCanonicalDecimal (Nat.repr port).toList = true ∧
    parseDecimal (Nat.repr port).toList = port ∧
    ∀ (host2 : String) (port2 : Nat),
      fmt.Sprintf_s_d host port = fmt.Sprintf_s_d host2 port2 → host = host2 ∧ port = port2 := by
  refine ⟨sprintf_split host port, repr_canonical port, repr_value port, ?_⟩
  intro host2 port2 heq
  have h1 := sprintf_split host port
  rw [heq, sprintf_split host2 port2] at h1
  simp only [Option.some.injEq, Prod.mk.injEq] at h1
  refine ⟨?_, ?_⟩
  · exact (String.ext h1.1).symm
  · have := congrArg parseDecimal h1.2
    rw [repr_value, repr_value] at this
    exact this.symm

theorem address_entry_is_invertible_witness :
    fmt.Sprintf_s_d "fe80::1" 2379 = "fe80::1:2379" ∧
    splitLast ':' (fmt.Sprintf_s_d "fe80::1" 2379).toList
      = some ("fe80::1".toList, "2379".toList) ∧
    ("fe80::1" = "fe80::1" ∧ 2379 = 2379) :=
  ⟨by decide, (address_entry_is_invertible "fe80::1" 2379).1,
    (address_entry_is_invertible "fe80::1" 2379).2.2.2 "fe80::1" 2379 rfl⟩

end Tiup
